import Mathlib

/-!
Shallow embedding of the report-fetch core of `tap_google_analytics`
(`ga_client.py`, `error.py`): the error taxonomy, the error classifier,
the retry wrapper, the pagination loop, the request builder and the row
normalizer (type coercion, field renaming, registry lookup).

Machine-level conventions of the embedding:
* Python exceptions are modelled by the `PyError` type; fallible code
  returns `Except PyError _`.
* Python `dict` values are association lists (`List (String × _)`); the
  `d[k]` item lookup raises `KeyError` on a missing key, `d.get(k, v)`
  is total.
* The builtins `int(s)` / `float(s)` are modelled as decimal parsers
  (`pyIntParse` / `pyFloatParse`, the latter into `ℚ`); a string they
  cannot parse raises `ValueError`.
* `str.replace(old, new)` for the two fixed patterns `"ga_"→"ga:"` and
  `"ga:"→"ga_"` is modelled by the left-to-right non-overlapping
  scanners `toWireL` / `toCallerL` on `List Char`.
* The remote API is an oracle `api : Nat → WireRequest → Except
  HttpErrorData Response`: the value of attempt number `n` (globally
  counted) issued with a given request body.  Backoff sleep times are
  not modelled; only the attempt count and outcomes are.
* The unbounded `while True:` pagination loop takes explicit fuel; a
  run that does not finish within the fuel yields `FetchResult.fuelOut`.
-/

namespace TapGA

/-! ### error.py: the caller-facing error taxonomy -/

/-- The closed taxonomy of `TapGaApiError` subclasses from `error.py`,
each carrying the message string passed to the constructor. -/
inductive TapError where
  | rateLimit (msg : String)
  | quotaExceeded (msg : String)
  | invalidArgument (msg : String)
  | authentication (msg : String)
  | unknown (msg : String)
deriving DecidableEq, Repr

/-- The data of a `googleapiclient` `HttpError`: `e.resp.status`,
`e.resp.reason` and the message `e._get_reason()`. -/
structure HttpErrorData where
  status : Nat
  reason : String
  message : String
deriving DecidableEq, Repr

/-- Python exceptions that can flow through the client code. -/
inductive PyError where
  /-- an `HttpError` raised by the transport -/
  | http (e : HttpErrorData)
  /-- `KeyError` from a `dict` item lookup on a missing key -/
  | keyError (key : String)
  /-- `ValueError` from `int()` / `float()` on a non-numeric string -/
  | valueError (msg : String)
  /-- `AttributeError`, e.g. attribute access on `None` -/
  | attributeError (msg : String)
  /-- `StopIteration` -/
  | stopIteration
  /-- one of the `TapGaApiError` subclasses -/
  | tapError (e : TapError)
deriving DecidableEq, Repr

deriving instance DecidableEq for Except

/-! ### Numeric parsing: the builtins `int` and `float` -/

/-- `l.all isDigit` -/
def allDigits (l : List Char) : Bool := l.all (fun c => c.isDigit)

/-- Value of a string of decimal digits (most significant first). -/
def digitsToNat (l : List Char) : Nat :=
  l.foldl (fun acc c => acc * 10 + (c.toNat - 48)) 0

/-- Parse a non-empty all-digit string. -/
def parseNatDigits (l : List Char) : Option Nat :=
  if l.isEmpty then none
  else if allDigits l then some (digitsToNat l) else none

/-- Strip one optional leading sign, returning (isNegative, rest). -/
def signSplit (l : List Char) : Bool × List Char :=
  match l with
  | '-' :: rest => (true, rest)
  | '+' :: rest => (false, rest)
  | _ => (false, l)

/-- The builtin `int(s)` on decimal strings: optional sign then digits;
anything else raises `ValueError`. -/
def pyIntParse (s : String) : Except PyError Int :=
  let (neg, body) := signSplit s.data
  match parseNatDigits body with
  | some n => .ok (if neg then -(n : Int) else (n : Int))
  | none => .error (.valueError s)

/-- Split a character list at the first `'.'`; `none` if there is no dot. -/
def splitAtDot (l : List Char) : List Char × Option (List Char) :=
  match l with
  | [] => ([], none)
  | '.' :: rest => ([], some rest)
  | c :: rest =>
    let p := splitAtDot rest
    (c :: p.1, p.2)

/-- The builtin `float(s)` on plain decimal strings: optional sign,
integer digits, optional `'.'` and fraction digits (at least one digit
overall); the value is returned exactly, as a rational. Anything else
raises `ValueError`. -/
def pyFloatParse (s : String) : Except PyError ℚ :=
  let (neg, body) := signSplit s.data
  let core : Option ℚ :=
    match splitAtDot body with
    | (ip, none) => (parseNatDigits ip).map (fun n => (n : ℚ))
    | (ip, some fp) =>
      if (ip.isEmpty && fp.isEmpty) then none
      else if allDigits ip && allDigits fp then
        some ((digitsToNat ip : ℚ) + (digitsToNat fp : ℚ) / (10 : ℚ) ^ fp.length)
      else none
  match core with
  | some q => .ok (if neg then -q else q)
  | none => .error (.valueError s)

/-! ### Field renaming: `.replace("ga_", "ga:")` and `.replace("ga:", "ga_")` -/

/-- `s.replace("ga_", "ga:")` on the character list: scan left to right,
rewriting each non-overlapping occurrence of `g a _` to `g a :`. -/
def toWireL : List Char → List Char
  | [] => []
  | [a] => [a]
  | [a, b] => [a, b]
  | a :: b :: c :: rest2 =>
    if a = 'g' ∧ b = 'a' ∧ c = '_' then 'g' :: 'a' :: ':' :: toWireL rest2
    else a :: toWireL (b :: c :: rest2)

/-- `s.replace("ga:", "ga_")` on the character list. -/
def toCallerL : List Char → List Char
  | [] => []
  | [a] => [a]
  | [a, b] => [a, b]
  | a :: b :: c :: rest2 =>
    if a = 'g' ∧ b = 'a' ∧ c = ':' then 'g' :: 'a' :: '_' :: toCallerL rest2
    else a :: toCallerL (b :: c :: rest2)

/-- Does `g a :` occur as a contiguous substring? -/
def occursGaColon : List Char → Bool
  | [] => false
  | [_] => false
  | [_, _] => false
  | a :: b :: c :: rest2 =>
    if a = 'g' ∧ b = 'a' ∧ c = ':' then true else occursGaColon (b :: c :: rest2)

/-- `name.replace("ga_", "ga:")` (request builder direction). -/
def strToWire (s : String) : String := String.mk (toWireL s.data)

/-- `name.replace("ga:", "ga_")` (row normalizer direction). -/
def strToCaller (s : String) : String := String.mk (toCallerL s.data)

/-! ### Python dict operations -/

/-- Scalar values a normalized record can hold. -/
inductive PyValue where
  | str (s : String)
  | int (n : Int)
  | float (q : ℚ)
deriving DecidableEq, Repr

/-- A normalized record: an insertion-ordered mapping from field name to
value, as a Python dict. -/
abbrev Record := List (String × PyValue)

/-- Python `d[k]` on a dict: the mapped value, or `KeyError` when absent. -/
def pyDictGetItem (d : List (String × String)) (k : String) : Except PyError String :=
  match d.find? (fun p => p.1 == k) with
  | some p => .ok p.2
  | none => .error (.keyError k)

/-- Python `record[key] = value` on an insertion-ordered dict: update in
place when the key exists, append otherwise. -/
def dictSet (record : Record) (key : String) (value : PyValue) : Record :=
  if record.any (fun p => p.1 == key) then
    record.map (fun p => if p.1 == key then (key, value) else p)
  else record ++ [(key, value)]

/-! ### Wire response shapes (Analytics Reporting API V4) -/

/-- One entry of `columnHeader.metricHeader.metricHeaderEntries`. -/
structure MetricHeaderEntry where
  name : String
deriving DecidableEq, Repr

/-- `report['columnHeader']`; absent sub-fields collapse to `[]` as the
source reads them with `.get(..., [])`. -/
structure ColumnHeader where
  dimensions : List String
  metricHeaderEntries : List MetricHeaderEntry
deriving DecidableEq, Repr

/-- One element of `row['metrics']`: a per-date-range block of values. -/
structure DateRangeValues where
  values : List String
deriving DecidableEq, Repr

/-- One element of `report['data']['rows']`. -/
structure ReportRow where
  dimensions : List String
  metrics : List DateRangeValues
deriving DecidableEq, Repr

/-- `report['data']`; a missing `rows` key collapses to `[]`. -/
structure ReportData where
  rows : List ReportRow
deriving DecidableEq, Repr

/-- One report block of the response. -/
structure Report where
  columnHeader : ColumnHeader
  data : ReportData
  nextPageToken : Option String
deriving DecidableEq, Repr

/-- A whole API response; a missing `reports` key collapses to `[]`. -/
structure Response where
  reports : List Report
deriving DecidableEq, Repr

/-! ### Client state and report definitions -/

/-- The fields of a `GAClient` instance that the fetch path reads:
the two registry mappings from `fetch_metadata` plus the config. -/
structure GAState where
  dimensions_ref : List (String × String)
  metrics_ref : List (String × String)
  view_id : String
  start_date : String
  end_date : String
deriving Repr

/-- The `stream` argument of `process_stream`: the caller's dimension
and metric names (`ga_`-form). -/
structure StreamSpec where
  dimensions : List String
  metrics : List String
deriving DecidableEq, Repr

/-- The report definition built by `generate_report_definition`:
dimension `name`s and metric `expression`s in wire (`ga:`) form. -/
structure ReportDefinition where
  dimensions : List String
  metrics : List String
deriving DecidableEq, Repr

/-- `generate_report_definition(stream)`: each dimension and metric name
goes through `.replace("ga_", "ga:")`. -/
def generate_report_definition (stream : StreamSpec) : ReportDefinition :=
  { dimensions := stream.dimensions.map strToWire,
    metrics := stream.metrics.map strToWire }

/-- The request body assembled inside `query_api`. -/
structure WireRequest where
  viewId : String
  startDate : String
  endDate : String
  pageSize : String
  pageToken : Option String
  metrics : List String
  dimensions : List String
deriving DecidableEq, Repr

/-- The single `reportRequests` entry `query_api` sends. -/
def query_api_body (st : GAState) (rd : ReportDefinition) (pageToken : Option String) :
    WireRequest :=
  { viewId := st.view_id, startDate := st.start_date, endDate := st.end_date,
    pageSize := "1000", pageToken := pageToken,
    metrics := rd.metrics, dimensions := rd.dimensions }

/-! ### Error classification and retry policy -/

/-- `NON_FATAL_ERRORS` from `ga_client.py`. -/
def NON_FATAL_ERRORS : List String :=
  ["userRateLimitExceeded", "quotaExceeded", "internalServerError", "backendError"]

/-- `fatal_code(error)`: `error.resp.reason not in NON_FATAL_ERRORS`. -/
def fatal_code (error : HttpErrorData) : Bool :=
  !(NON_FATAL_ERRORS.contains error.reason)

/-- The `except HttpError` chain at the bottom of `process_stream`:
reason is inspected before status, and everything unmatched becomes
`TapGaUnknownError`. -/
def classify_http_error (e : HttpErrorData) : TapError :=
  if e.reason = "userRateLimitExceeded" then .rateLimit e.message
  else if e.reason = "quotaExceeded" then .quotaExceeded e.message
  else if e.status = 400 then .invalidArgument e.message
  else if e.status ∈ ([401, 402] : List Nat) then .authentication e.message
  else .unknown e.message

/-- `max_tries=5` of the `backoff.on_exception` decorator on `query_api`. -/
def MAX_TRIES : Nat := 5

/-- The `backoff.on_exception(backoff.expo, HttpError, max_tries=5,
giveup=fatal_code)` wrapper around `query_api`, with the remote modelled
as an oracle over global attempt numbers.  `retriesLeft` is the number
of further attempts that may follow the current one, so the wrapper is
entered with `MAX_TRIES - 1`.  Returns the next unused attempt number
together with the final outcome: an attempt that raises a fatal
`HttpError` is re-raised at once; a non-fatal one is retried until the
attempt budget is exhausted, then re-raised.  (Backoff sleep durations
are not modelled.) -/
def query_api_attempts (api : Nat → WireRequest → Except HttpErrorData Response)
    (req : WireRequest) : Nat → Nat → Nat × Except HttpErrorData Response
  | att, 0 => (att + 1, api att req)
  | att, retriesLeft + 1 =>
    match api att req with
    | .ok r => (att + 1, .ok r)
    | .error e =>
      if fatal_code e then (att + 1, .error e)
      else query_api_attempts api req (att + 1) retriesLeft

/-! ### Row normalization (`process_response`) -/

/-- The dimension branch of the row loop: coerce one raw dimension value
by its registry type tag (`int` / `float` / leave as string). -/
def coerce_dimension (data_type : String) (dimension : String) : Except PyError PyValue :=
  if data_type = "INTEGER" then (pyIntParse dimension).map PyValue.int
  else if data_type = "FLOAT" ∨ data_type = "PERCENT" ∨ data_type = "TIME" then
    (pyFloatParse dimension).map PyValue.float
  else .ok (.str dimension)

/-- The metric branch of the row loop: same three-way coercion; with no
matching branch the raw string is left untouched (there is no `else`). -/
def coerce_metric (metric_type : String) (value : String) : Except PyError PyValue :=
  if metric_type = "INTEGER" then (pyIntParse value).map PyValue.int
  else if metric_type = "FLOAT" ∨ metric_type = "PERCENT" ∨ metric_type = "TIME" then
    (pyFloatParse value).map PyValue.float
  else .ok (.str value)

/-- `for header, dimension in zip(dimensionHeaders, dimensions): ...` —
registry lookup (`KeyError` on a miss), coercion, then
`record[header.replace("ga:","ga_")] = value`. -/
def process_row_dimensions (dimensions_ref : List (String × String)) :
    List (String × String) → Record → Except PyError Record
  | [], record => .ok record
  | (header, dimension) :: rest, record => do
    let data_type ← pyDictGetItem dimensions_ref header
    let value ← coerce_dimension data_type dimension
    process_row_dimensions dimensions_ref rest (dictSet record (strToCaller header) value)

/-- Inner metric loop: `for metricHeader, value in zip(metricHeaders,
values.get('values')): ...`. -/
def process_row_metric_values (metrics_ref : List (String × String)) :
    List (MetricHeaderEntry × String) → Record → Except PyError Record
  | [], record => .ok record
  | (metricHeader, value) :: rest, record => do
    let metric_type ← pyDictGetItem metrics_ref metricHeader.name
    let v ← coerce_metric metric_type value
    process_row_metric_values metrics_ref rest
      (dictSet record (strToCaller metricHeader.name) v)

/-- Outer metric loop: `for i, values in enumerate(dateRangeValues)`. -/
def process_row_metric_blocks (metrics_ref : List (String × String))
    (metricHeaders : List MetricHeaderEntry) :
    List DateRangeValues → Record → Except PyError Record
  | [], record => .ok record
  | values :: rest, record => do
    let record ← process_row_metric_values metrics_ref
      (metricHeaders.zip values.values) record
    process_row_metric_blocks metrics_ref metricHeaders rest record

/-- `for row in report.get('data', {}).get('rows', [])`: build each
record (dimensions, metrics, then the injected report date fields) and
append it to `results`. -/
def process_rows (st : GAState) (dimensionHeaders : List String)
    (metricHeaders : List MetricHeaderEntry) :
    List ReportRow → List Record → Except PyError (List Record)
  | [], results => .ok results
  | row :: rest, results => do
    let record ← process_row_dimensions st.dimensions_ref
      (dimensionHeaders.zip row.dimensions) []
    let record ← process_row_metric_blocks st.metrics_ref metricHeaders row.metrics record
    let record := dictSet record "report_start_date" (.str st.start_date)
    let record := dictSet record "report_end_date" (.str st.end_date)
    process_rows st dimensionHeaders metricHeaders rest (results ++ [record])

/-- `process_response(response)`.  `next(iter(response.get('reports',
[])), None)` yields `None` (not `StopIteration`) on an empty list, after
which `report.get('columnHeader', {})` raises `AttributeError`; the
`except StopIteration` handler catches only `StopIteration`, so it is
reachable by no path of the body. -/
def process_response (st : GAState) (response : Response) :
    Except PyError (Option String × List Record) :=
  let body : Except PyError (Option String × List Record) :=
    match response.reports.head? with
    | none => .error (.attributeError "NoneType object has no attribute get")
    | some report => do
      let dimensionHeaders := report.columnHeader.dimensions
      let metricHeaders := report.columnHeader.metricHeaderEntries
      let results ← process_rows st dimensionHeaders metricHeaders report.data.rows []
      pure (report.nextPageToken, results)
  match body with
  | .error .stopIteration => .ok (none, [])
  | other => other

/-! ### The pagination loop (`process_stream`) -/

/-- Outcome of the `while True:` loop of `process_stream`. -/
inductive FetchResult where
  /-- normal return: the accumulated `records` -/
  | ok (records : List Record)
  /-- an exception escapes the loop -/
  | err (e : PyError)
  /-- the run did not finish within the given fuel -/
  | fuelOut
deriving DecidableEq, Repr

/-- What one run of `process_stream` did: how many remote attempts were
made, which page token each loop iteration passed to `query_api`, and
the final outcome. -/
structure StreamOutcome where
  attempts : Nat
  callTokens : List (Option String)
  result : FetchResult
deriving DecidableEq, Repr

/-- The `while True:` body: call `query_api` (through the retry
wrapper), process the page, extend `records`, and loop while a
`nextPageToken` is present. -/
def process_stream_loop (st : GAState)
    (api : Nat → WireRequest → Except HttpErrorData Response)
    (rd : ReportDefinition) :
    Nat → Nat → Option String → List Record → StreamOutcome
  | 0, att, _, _ => ⟨att, [], .fuelOut⟩
  | fuel + 1, att, tok, records =>
    match query_api_attempts api (query_api_body st rd tok) att (MAX_TRIES - 1) with
    | (att2, .error e) => ⟨att2, [tok], .err (.http e)⟩
    | (att2, .ok response) =>
      match process_response st response with
      | .error e => ⟨att2, [tok], .err e⟩
      | .ok (nextPageToken, results) =>
        match nextPageToken with
        | none => ⟨att2, [tok], .ok (records ++ results)⟩
        | some t =>
          let o := process_stream_loop st api rd fuel att2 (some t) (records ++ results)
          ⟨o.attempts, tok :: o.callTokens, o.result⟩

/-- `process_stream(stream)`: build the report definition once, run the
pagination loop from no token, and translate an escaping `HttpError`
through the `except HttpError` classification chain.  All other
exceptions (`KeyError`, `ValueError`, `AttributeError`) propagate
unchanged. -/
def process_stream (st : GAState) (stream : StreamSpec)
    (api : Nat → WireRequest → Except HttpErrorData Response)
    (fuel : Nat) : StreamOutcome :=
  let report_definition := generate_report_definition stream
  let o := process_stream_loop st api report_definition fuel 0 none []
  match o.result with
  | .err (.http e) => ⟨o.attempts, o.callTokens, .err (.tapError (classify_http_error e))⟩
  | _ => o

/-- Token passed to loop iteration `i` when page `i`'s parsed
continuation token is `nxt i`: the first call carries no token, each
later call carries the previous page's token. -/
def tokenChain (nxt : Nat → Option String) : Nat → Option String
  | 0 => none
  | i + 1 => nxt i

/-- Prepend earlier loop iterations' call tokens to an outcome
(proof-level vocabulary for reasoning about `process_stream_loop`). -/
def prependTokens (ts : List (Option String)) (o : StreamOutcome) : StreamOutcome :=
  ⟨o.attempts, ts ++ o.callTokens, o.result⟩

/-- Does a `process_response` outcome consist of raising
`TapGaInvalidArgumentError`? -/
def isInvalidArgumentResult : Except PyError (Option String × List Record) → Bool
  | .error (.tapError (.invalidArgument _)) => true
  | _ => false

/-! ## General lemmas about the embedding -/

/-- A successful attempt returns immediately with one attempt consumed. -/
lemma query_api_attempts_ok {api : Nat → WireRequest → Except HttpErrorData Response}
    {req : WireRequest} {att tries : Nat} {r : Response}
    (h : api att req = .ok r) :
    query_api_attempts api req att tries = (att + 1, .ok r) := by
  cases tries with
  | zero => simp [query_api_attempts, h]
  | succ t => simp [query_api_attempts, h]

/-- A fatal failure is re-raised immediately with one attempt consumed. -/
lemma query_api_attempts_fatal {api : Nat → WireRequest → Except HttpErrorData Response}
    {req : WireRequest} {att tries : Nat} {e : HttpErrorData}
    (h : api att req = .error e) (hf : fatal_code e = true) :
    query_api_attempts api req att tries = (att + 1, .error e) := by
  cases tries with
  | zero => simp [query_api_attempts, h]
  | succ t => simp [query_api_attempts, h, hf]

/-- A call that fails non-fatally on every attempt consumes exactly
`t + 1` attempts when `t` further retries are allowed, then re-raises. -/
lemma query_api_attempts_nonfatal_exhaust
    {api : Nat → WireRequest → Except HttpErrorData Response}
    {req : WireRequest} {e : HttpErrorData}
    (h : ∀ n, api n req = .error e) (hnf : fatal_code e = false) :
    ∀ (t att : Nat), query_api_attempts api req att t = (att + t + 1, .error e) := by
  intro t
  induction t with
  | zero => intro att; simp [query_api_attempts, h att]
  | succ t ih =>
    intro att
    have hstep : query_api_attempts api req att (t + 1) =
        query_api_attempts api req (att + 1) t := by
      simp [query_api_attempts, h att, hnf]
    rw [hstep, ih (att + 1)]
    congr 1
    omega

/-- `fatal_code` is `false` exactly on the four whitelisted reasons. -/
lemma fatal_code_false_iff (e : HttpErrorData) :
    fatal_code e = false ↔
      (e.reason = "userRateLimitExceeded" ∨ e.reason = "quotaExceeded" ∨
       e.reason = "internalServerError" ∨ e.reason = "backendError") := by
  simp [fatal_code, NON_FATAL_ERRORS, List.contains, List.elem_cons]
  tauto

/-- A reason outside the whitelist makes the failure fatal. -/
lemma fatal_code_true_of_reason_not_mem {e : HttpErrorData}
    (h : e.reason ∉ NON_FATAL_ERRORS) : fatal_code e = true := by
  cases hb : fatal_code e
  · refine absurd ?_ h
    rcases (fatal_code_false_iff e).1 hb with h1 | h1 | h1 | h1 <;>
      simp [NON_FATAL_ERRORS, h1]
  · rfl

lemma prependTokens_nil (o : StreamOutcome) : prependTokens [] o = o := rfl

lemma prependTokens_cons (x : Option String) (ts : List (Option String))
    (o : StreamOutcome) :
    prependTokens [x] (prependTokens ts o) = prependTokens (x :: ts) o := rfl

/-- Shift a map over `List.range (d + 1)` by peeling the first index. -/
lemma range_succ_map_shift {α : Type} (f : Nat → α) (k d : Nat) :
    (List.range (d + 1)).map (fun j => f (k + j)) =
      f k :: (List.range d).map (fun j => f (k + 1 + j)) := by
  rw [List.range_succ_eq_map, List.map_cons, List.map_map]
  refine congrArg₂ _ (by simp) ?_
  apply List.map_congr_left
  intro j hj
  simp only [Function.comp_apply]
  exact congrArg f (by omega)

/-- The scanners rewrite only the first character of a 3-character
pattern window, and both patterns start with the same character, so the
head of the output is the head of the input. -/
lemma toWireL_head? : ∀ l : List Char, (toWireL l).head? = l.head? := by
  intro l
  induction l using toWireL.induct with
  | case1 => rfl
  | case2 a => rfl
  | case3 a b => rfl
  | case4 a b c r2 h ih => simp [toWireL, h, h.1]
  | case5 a b c r2 h ih => simp [toWireL, h]

/-- If `g a :` does not occur in `x :: l` it does not occur in `l`. -/
lemma occursGaColon_cons (x : Char) (l : List Char)
    (h : occursGaColon (x :: l) = false) : occursGaColon l = false := by
  cases l with
  | nil => rfl
  | cons b t =>
    cases t with
    | nil => rfl
    | cons c t2 =>
      by_cases hc : x = 'g' ∧ b = 'a' ∧ c = ':'
      · simp [occursGaColon, hc] at h
      · simpa [occursGaColon, hc] using h

/-- Round trip of the two renaming scanners: on a string containing no
occurrence of the wire separator pattern `g a :` (i.e. a caller-form
name), `.replace("ga_","ga:")` followed by `.replace("ga:","ga_")` is
the identity. -/
lemma toCallerL_toWireL : ∀ l : List Char, occursGaColon l = false →
    toCallerL (toWireL l) = l := by
  intro l
  induction l using toWireL.induct with
  | case1 => intro _; rfl
  | case2 a => intro _; rfl
  | case3 a b => intro _; rfl
  | case4 a b c r2 hc ih =>
    intro h
    obtain ⟨ha, hb, hcc⟩ := hc
    subst ha; subst hb; subst hcc
    have h1 := occursGaColon_cons _ _ h
    have h2 := occursGaColon_cons _ _ h1
    have hr2 := occursGaColon_cons _ _ h2
    simp [toWireL, toCallerL]
    exact ih hr2
  | case5 a b c r2 hc ih =>
    intro h
    have htail : occursGaColon (b :: c :: r2) = false := occursGaColon_cons _ _ h
    have ihp := ih htail
    have hw : toWireL (a :: b :: c :: r2) = a :: toWireL (b :: c :: r2) := by
      simp [toWireL, hc]
    rw [hw]
    cases r2 with
    | nil =>
      by_cases hx : a = 'g' ∧ b = 'a' ∧ c = ':'
      · simp [occursGaColon, hx] at h
      · simp [toWireL, toCallerL, hx]
    | cons d r3 =>
      by_cases hz : b = 'g' ∧ c = 'a' ∧ d = '_'
      · have hw2 : toWireL (b :: c :: d :: r3) = 'g' :: 'a' :: ':' :: toWireL r3 := by
          simp [toWireL, hz]
        rw [hw2]
        have hstep : toCallerL (a :: 'g' :: 'a' :: ':' :: toWireL r3) =
            a :: toCallerL ('g' :: 'a' :: ':' :: toWireL r3) := by
          simp [toCallerL]
        rw [hstep, ← hw2, ihp]
      · have hw2 : toWireL (b :: c :: d :: r3) = b :: toWireL (c :: d :: r3) := by
          simp [toWireL, hz]
        cases hw3 : toWireL (c :: d :: r3) with
        | nil =>
          exfalso
          have hh := toWireL_head? (c :: d :: r3)
          rw [hw3] at hh
          simp at hh
        | cons x w3 =>
          have hx : x = c := by
            have hh := toWireL_head? (c :: d :: r3)
            rw [hw3] at hh
            simp at hh
            exact hh
          rw [hx] at hw3
          rw [hw2, hw3]
          by_cases ho : a = 'g' ∧ b = 'a' ∧ c = ':'
          · exfalso
            simp [occursGaColon, ho] at h
          · have hstep : toCallerL (a :: b :: c :: w3) = a :: toCallerL (b :: c :: w3) := by
              simp [toCallerL, ho]
            rw [hstep, ← hw3, ← hw2, ihp]

/-- String-level round trip of the renaming pair. -/
lemma strToCaller_strToWire (s : String) (h : occursGaColon s.data = false) :
    strToCaller (strToWire s) = s := by
  cases s with
  | mk data => exact congrArg String.mk (toCallerL_toWireL data h)

/-- Mapping the round trip over a list of caller-form names is the
identity. -/
lemma map_strToCaller_strToWire (l : List String)
    (hl : ∀ n ∈ l, occursGaColon n.data = false) :
    l.map (fun n => strToCaller (strToWire n)) = l := by
  have h : l.map (fun n => strToCaller (strToWire n)) = l.map id :=
    List.map_congr_left (fun a ha => strToCaller_strToWire a (hl a ha))
  simpa using h

/-- Walking the pagination loop over `d` consecutive pages that are
fetched (possibly with retries, tracked by the attempt counter `att`)
and processed successfully, each carrying a continuation token: the loop
advances to page `k + d`, the records of pages `k .. k+d-1` are appended
to the accumulator in page order, and the tokens passed so far are
prepended to the remaining run's token log. -/
lemma process_stream_loop_advance (st : GAState)
    (api : Nat → WireRequest → Except HttpErrorData Response)
    (rd : ReportDefinition) (pages : Nat → Response)
    (rows : Nat → List Record) (nxt : Nat → Option String) (att : Nat → Nat) :
    ∀ (d k fuel2 : Nat) (acc : List Record),
    (∀ i, k ≤ i → i < k + d →
      query_api_attempts api (query_api_body st rd (tokenChain nxt i)) (att i) (MAX_TRIES - 1)
        = (att (i + 1), .ok (pages i))) →
    (∀ i, k ≤ i → i < k + d → process_response st (pages i) = .ok (nxt i, rows i)) →
    (∀ i, k ≤ i → i < k + d → nxt i ≠ none) →
    process_stream_loop st api rd (d + fuel2) (att k) (tokenChain nxt k) acc =
      prependTokens ((List.range d).map (fun j => tokenChain nxt (k + j)))
        (process_stream_loop st api rd fuel2 (att (k + d)) (tokenChain nxt (k + d))
          (acc ++ ((List.range d).map (fun j => rows (k + j))).flatten)) := by
  intro d
  induction d with
  | zero =>
    intro k fuel2 acc hq hp ht
    simp [prependTokens]
  | succ d ihd =>
    intro k fuel2 acc hq hp ht
    have hq0 := hq k (le_refl k) (by omega)
    have hp0 := hp k (le_refl k) (by omega)
    have ht0 := ht k (le_refl k) (by omega)
    obtain ⟨t, htk⟩ : ∃ t, nxt k = some t := by
      cases hnx : nxt k
      · exact absurd hnx ht0
      · exact ⟨_, rfl⟩
    have htok : tokenChain nxt (k + 1) = some t := by simp [tokenChain, htk]
    have harith : d + 1 + fuel2 = (d + fuel2) + 1 := by omega
    rw [harith]
    have hstep : process_stream_loop st api rd ((d + fuel2) + 1) (att k)
        (tokenChain nxt k) acc =
        prependTokens [tokenChain nxt k]
          (process_stream_loop st api rd (d + fuel2) (att (k + 1)) (tokenChain nxt (k + 1))
            (acc ++ rows k)) := by
      rw [htok]
      simp only [process_stream_loop, hq0, hp0, htk]
      simp [prependTokens]
    rw [hstep,
      ihd (k + 1) fuel2 (acc ++ rows k)
        (fun i h1 h2 => hq i (by omega) (by omega))
        (fun i h1 h2 => hp i (by omega) (by omega))
        (fun i h1 h2 => ht i (by omega) (by omega)),
      prependTokens_cons,
      show k + 1 + d = k + (d + 1) from by omega,
      range_succ_map_shift (fun j => tokenChain nxt j) k d,
      range_succ_map_shift (fun j => rows j) k d]
    simp [List.append_assoc]

/-! ## The claims -/

/-- C2: the error classifier assigns exactly one kind per
(status, reason) combination, with reason inspected before status:
`RateLimitError` on `userRateLimitExceeded`, `QuotaExceededError` on
`quotaExceeded`, then `InvalidArgumentError` on status 400,
`AuthenticationError` on status 401/402, and `UnknownError` for every
remaining combination, including all 5xx. -/
theorem C2_error_classifier (e : HttpErrorData) :
    (e.reason = "userRateLimitExceeded" →
      classify_http_error e = .rateLimit e.message) ∧
    (e.reason ≠ "userRateLimitExceeded" → e.reason = "quotaExceeded" →
      classify_http_error e = .quotaExceeded e.message) ∧
    (e.reason ≠ "userRateLimitExceeded" → e.reason ≠ "quotaExceeded" →
      e.status = 400 → classify_http_error e = .invalidArgument e.message) ∧
    (e.reason ≠ "userRateLimitExceeded" → e.reason ≠ "quotaExceeded" →
      e.status ≠ 400 → (e.status = 401 ∨ e.status = 402) →
      classify_http_error e = .authentication e.message) ∧
    (e.reason ≠ "userRateLimitExceeded" → e.reason ≠ "quotaExceeded" →
      e.status ≠ 400 → e.status ≠ 401 → e.status ≠ 402 →
      classify_http_error e = .unknown e.message) := by
  refine ⟨?_, ?_, ?_, ?_, ?_⟩ <;> intros <;> simp_all [classify_http_error]

/-- C2 witness: a 403 with reason `userRateLimitExceeded` classifies as
`RateLimitError`; a 500 with reason `backendError` as `UnknownError`. -/
theorem C2_error_classifier_witness :
    classify_http_error ⟨403, "userRateLimitExceeded", "m"⟩ = .rateLimit "m" ∧
    classify_http_error ⟨500, "backendError", "m"⟩ = .unknown "m" :=
  ⟨(C2_error_classifier _).1 rfl,
   (C2_error_classifier _).2.2.2.2 (by decide) (by decide) (by decide) (by decide) (by decide)⟩

/-- C3: `fatal_code` marks a failure non-fatal exactly when its reason
is one of the four whitelisted codes, regardless of the status code
(which it never reads). -/
theorem C3_nonfatal_whitelist (e : HttpErrorData) :
    fatal_code e = false ↔
      (e.reason = "userRateLimitExceeded" ∨ e.reason = "quotaExceeded" ∨
       e.reason = "internalServerError" ∨ e.reason = "backendError") :=
  fatal_code_false_iff e

/-- C4: a remote call that fails with the same non-fatal error on every
attempt makes exactly 5 attempts (never a 6th), after which the fetch
surfaces the classified error to the caller. -/
theorem C4_retry_bound_five_attempts (st : GAState) (stream : StreamSpec)
    (api : Nat → WireRequest → Except HttpErrorData Response)
    (e : HttpErrorData) (fuel : Nat)
    (hfuel : 0 < fuel)
    (hcall : ∀ n req, api n req = .error e)
    (hnf : fatal_code e = false) :
    process_stream st stream api fuel =
      ⟨5, [none], .err (.tapError (classify_http_error e))⟩ := by
  obtain ⟨f, rfl⟩ : ∃ f, fuel = f + 1 := ⟨fuel - 1, by omega⟩
  have hq : query_api_attempts api
      (query_api_body st (generate_report_definition stream) none) 0 (MAX_TRIES - 1) =
      (5, .error e) := by
    rw [query_api_attempts_nonfatal_exhaust
      (fun n => hcall n (query_api_body st (generate_report_definition stream) none)) hnf]
    rfl
  unfold process_stream process_stream_loop
  simp [hq]

/-- C4 witness: always failing with (403, `userRateLimitExceeded`)
yields 5 attempts and a surfaced `RateLimitError`. -/
theorem C4_retry_bound_five_attempts_witness :
    process_stream ⟨[], [], "v", "2019-05-01", "2019-05-28"⟩ ⟨[], []⟩
        (fun _ _ => .error ⟨403, "userRateLimitExceeded", "m"⟩) 3 =
      ⟨5, [none], .err (.tapError (.rateLimit "m"))⟩ := by
  rw [C4_retry_bound_five_attempts _ _ _ ⟨403, "userRateLimitExceeded", "m"⟩ 3
    (by decide) (fun n req => rfl) (by decide)]
  decide

/-- C6: both the dimension branch and the metric branch of the row loop
apply the same three-way coercion: `INTEGER` goes through `int()`,
`FLOAT`/`PERCENT`/`TIME` through `float()`, and every other type tag
leaves the raw wire string unchanged. -/
theorem C6_three_way_coercion (tag v : String) :
    coerce_metric tag v = coerce_dimension tag v ∧
    (tag = "INTEGER" → coerce_dimension tag v = (pyIntParse v).map PyValue.int) ∧
    ((tag = "FLOAT" ∨ tag = "PERCENT" ∨ tag = "TIME") →
      coerce_dimension tag v = (pyFloatParse v).map PyValue.float) ∧
    (tag ≠ "INTEGER" → tag ≠ "FLOAT" → tag ≠ "PERCENT" → tag ≠ "TIME" →
      coerce_dimension tag v = .ok (.str v)) := by
  refine ⟨rfl, ?_, ?_, ?_⟩
  · intro h; simp_all [coerce_dimension]
  · rintro (h | h | h) <;> simp_all [coerce_dimension]
  · intros; simp_all [coerce_dimension]

/-- C6 witness: `"42"` as `INTEGER` becomes integer 42, `"3.14"` as
`FLOAT` becomes the float 3.14 (the rational 157/50 in this embedding),
and `"abc"` as `STRING` is unchanged — for metrics as well. -/
theorem C6_three_way_coercion_witness :
    coerce_dimension "INTEGER" "42" = .ok (.int 42) ∧
    coerce_dimension "FLOAT" "3.14" = .ok (.float (157 / 50 : ℚ)) ∧
    coerce_metric "STRING" "abc" = .ok (.str "abc") := by
  refine ⟨?_, ?_, ?_⟩
  · rw [(C6_three_way_coercion "INTEGER" "42").2.1 rfl]; decide
  · rw [(C6_three_way_coercion "FLOAT" "3.14").2.2.1 (Or.inl rfl)]
    have h1 : pyFloatParse "3.14" =
        .ok ((digitsToNat ['3'] : ℚ) + (digitsToNat ['1', '4'] : ℚ) / 10 ^ (['1', '4'].length)) :=
      rfl
    have h2 : ((digitsToNat ['3'] : ℚ) + (digitsToNat ['1', '4'] : ℚ) / 10 ^ (['1', '4'].length)) =
        157 / 50 := by
      have d1 : digitsToNat ['3'] = 3 := rfl
      have d2 : digitsToNat ['1', '4'] = 14 := rfl
      rw [d1, d2]
      norm_num
    rw [h1, h2]
    rfl
  · rw [(C6_three_way_coercion "STRING" "abc").1,
      (C6_three_way_coercion "STRING" "abc").2.2.2
        (by decide) (by decide) (by decide) (by decide)]

/-- C7 (code bug): on a response with zero report blocks,
`process_response` does not return the empty page `(None, [])`: since
`next(iter([]), None)` returns `None` rather than raising
`StopIteration`, the subsequent `report.get('columnHeader', {})` raises
`AttributeError`, which the `except StopIteration` handler does not
catch. -/
theorem C7_zero_reports_raises (st : GAState) :
    process_response st { reports := [] } =
      .error (.attributeError "NoneType object has no attribute get") := rfl

/-- C8 (amended): a first attempt failing with status 400 and a reason
outside the non-fatal whitelist raises `InvalidArgumentError` to the
caller after exactly one attempt — zero retries. -/
theorem C8_fatal_400 (st : GAState) (stream : StreamSpec)
    (api : Nat → WireRequest → Except HttpErrorData Response)
    (e : HttpErrorData) (fuel : Nat)
    (hfuel : 0 < fuel)
    (hcall : api 0 (query_api_body st (generate_report_definition stream) none) = .error e)
    (hstatus : e.status = 400)
    (hreason : e.reason ∉ NON_FATAL_ERRORS) :
    process_stream st stream api fuel =
      ⟨1, [none], .err (.tapError (.invalidArgument e.message))⟩ := by
  obtain ⟨f, rfl⟩ : ∃ f, fuel = f + 1 := ⟨fuel - 1, by omega⟩
  have hf : fatal_code e = true := fatal_code_true_of_reason_not_mem hreason
  have hne1 : e.reason ≠ "userRateLimitExceeded" := fun h =>
    hreason (by simp [NON_FATAL_ERRORS, h])
  have hne2 : e.reason ≠ "quotaExceeded" := fun h =>
    hreason (by simp [NON_FATAL_ERRORS, h])
  have hq := @query_api_attempts_fatal _ _ 0 (MAX_TRIES - 1) _ hcall hf
  unfold process_stream process_stream_loop
  simp [hq, classify_http_error, hne1, hne2, hstatus]

/-- C8 witness: status 400 with reason `invalidParameter` (not
whitelisted) raises `InvalidArgumentError` after exactly one attempt. -/
theorem C8_fatal_400_witness :
    process_stream ⟨[], [], "v", "2019-05-01", "2019-05-28"⟩ ⟨[], []⟩
        (fun _ _ => .error ⟨400, "invalidParameter", "m"⟩) 1 =
      ⟨1, [none], .err (.tapError (.invalidArgument "m"))⟩ := by
  rw [C8_fatal_400 _ _ _ ⟨400, "invalidParameter", "m"⟩ 1 (by decide) rfl rfl (by decide)]

/-- C8 counterexample: a failure carrying status 400 together with
reason `userRateLimitExceeded` is NOT raised as `InvalidArgumentError`
on the first attempt: it is retried (5 attempts in total) and surfaces
as `RateLimitError`, because `fatal_code` and the classifier inspect the
reason before the status. -/
theorem C8_status_400_counterexample :
    process_stream ⟨[], [], "v", "2019-05-01", "2019-05-28"⟩ ⟨[], []⟩
        (fun _ _ => .error ⟨400, "userRateLimitExceeded", "m"⟩) 1 =
      ⟨5, [none], .err (.tapError (.rateLimit "m"))⟩ := by decide

/-- C1 (amended): for a field name present in a registry mapping (whose
keys are unique, as produced from a dict), the lookup returns the
declared type; for an absent name it raises the plain Python `KeyError`
— never a default type and never a silent string coercion.  (The
exception is `KeyError`, not `TapGaInvalidArgumentError`: nothing in the
code converts it, see the counterexample.) -/
theorem C1_registry_lookup (d : List (String × String)) (k tag : String)
    (hnd : (d.map Prod.fst).Nodup) :
    ((k, tag) ∈ d → pyDictGetItem d k = .ok tag) ∧
    (k ∉ d.map Prod.fst → pyDictGetItem d k = .error (.keyError k)) := by
  constructor
  · intro hmem
    have hsome : (d.find? (fun p => p.1 == k)).isSome := by
      rw [List.find?_isSome]
      exact ⟨(k, tag), hmem, by simp⟩
    obtain ⟨q, hq⟩ := Option.isSome_iff_exists.1 hsome
    have hqmem : q ∈ d := List.mem_of_find?_eq_some hq
    have hqk : q.1 = k := by simpa using List.find?_some hq
    have hqeq : q = (k, tag) :=
      List.inj_on_of_nodup_map hnd hqmem hmem (by simp [hqk])
    simp [pyDictGetItem, hq, hqeq]
  · intro habs
    have hnone : d.find? (fun p => p.1 == k) = none := by
      rw [List.find?_eq_none]
      intro x hx
      simp only [beq_iff_eq]
      intro hxk
      exact habs (hxk ▸ List.mem_map_of_mem Prod.fst hx)
    simp [pyDictGetItem, hnone]

/-- C1 witness: a one-entry registry returns the declared type for its
key and `KeyError` for an unknown key. -/
theorem C1_registry_lookup_witness :
    pyDictGetItem [("ga:date", "STRING")] "ga:date" = .ok "STRING" ∧
    pyDictGetItem [("ga:date", "STRING")] "ga:foo" = .error (.keyError "ga:foo") :=
  ⟨(C1_registry_lookup [("ga:date", "STRING")] "ga:date" "STRING" (by decide)).1 (by decide),
   (C1_registry_lookup [("ga:date", "STRING")] "ga:foo" "STRING" (by decide)).2 (by decide)⟩

/-- C1 counterexample: a dimension header absent from the registry makes
row normalization fail with `KeyError`, not with the claimed
`InvalidArgumentError` (no code path converts the `KeyError`). -/
theorem C1_keyerror_counterexample :
    process_response ⟨[("ga:date", "STRING")], [], "v", "2019-05-01", "2019-05-28"⟩
        ⟨[{ columnHeader := ⟨["ga:foo"], []⟩, data := ⟨[⟨["x"], []⟩]⟩,
            nextPageToken := none }]⟩
      = .error (.keyError "ga:foo") ∧
    isInvalidArgumentResult
      (process_response ⟨[("ga:date", "STRING")], [], "v", "2019-05-01", "2019-05-28"⟩
        ⟨[{ columnHeader := ⟨["ga:foo"], []⟩, data := ⟨[⟨["x"], []⟩]⟩,
            nextPageToken := none }]⟩) = false :=
  ⟨rfl, rfl⟩

/-- C9: the row normalizer's renaming (`.replace("ga:", "ga_")`, the
very substitution applied to every output record key) is the exact
reverse of the request builder's (`.replace("ga_", "ga:")`): on caller
field names — names not already containing the wire pattern `ga:` —
builder-then-normalizer renaming is the identity, so a caller field such
as `ga_sessions` reappears in the output under `ga_sessions`, never
`ga:sessions`. -/
theorem C9_field_renaming (stream : StreamSpec)
    (h : ∀ n ∈ stream.dimensions ++ stream.metrics, occursGaColon n.data = false) :
    (generate_report_definition stream).dimensions.map strToCaller = stream.dimensions ∧
    (generate_report_definition stream).metrics.map strToCaller = stream.metrics := by
  constructor
  · unfold generate_report_definition
    simp only [List.map_map, Function.comp_def]
    exact map_strToCaller_strToWire stream.dimensions
      (fun n hn => h n (List.mem_append_left _ hn))
  · unfold generate_report_definition
    simp only [List.map_map, Function.comp_def]
    exact map_strToCaller_strToWire stream.metrics
      (fun n hn => h n (List.mem_append_right _ hn))

/-- C9 witness: `ga_date` and `ga_sessions` survive the
builder-then-normalizer round trip unchanged. -/
theorem C9_field_renaming_witness :
    (generate_report_definition ⟨["ga_date"], ["ga_sessions"]⟩).dimensions.map strToCaller
      = ["ga_date"] ∧
    (generate_report_definition ⟨["ga_date"], ["ga_sessions"]⟩).metrics.map strToCaller
      = ["ga_sessions"] :=
  C9_field_renaming ⟨["ga_date"], ["ga_sessions"]⟩ (by decide)

/-- C5: when every page is fetched successfully on its first attempt and
the `N`-th page is the first carrying no continuation token, the fetch
loop terminates after exactly `N` remote calls — the first with no
token, each later call with the token parsed from the previous page —
and returns the rows of all `N` pages in page order, row order. -/
theorem C5_pagination_terminates (st : GAState) (stream : StreamSpec)
    (api : Nat → WireRequest → Except HttpErrorData Response)
    (pages : Nat → Response) (rows : Nat → List Record) (nxt : Nat → Option String)
    (N fuel : Nat)
    (hN : 0 < N) (hfuel : N ≤ fuel)
    (hq : ∀ i, i < N →
      api i (query_api_body st (generate_report_definition stream) (tokenChain nxt i))
        = .ok (pages i))
    (hp : ∀ i, i < N → process_response st (pages i) = .ok (nxt i, rows i))
    (hmid : ∀ i, i + 1 < N → nxt i ≠ none)
    (hlast : nxt (N - 1) = none) :
    process_stream st stream api fuel =
      ⟨N, (List.range N).map (tokenChain nxt),
        .ok (((List.range N).map rows).flatten)⟩ := by
  obtain ⟨d, rfl⟩ : ∃ d, N = d + 1 := ⟨N - 1, by omega⟩
  obtain ⟨f2, rfl⟩ : ∃ f2, fuel = d + (f2 + 1) := ⟨fuel - d - 1, by omega⟩
  have hlast2 : nxt d = none := by simpa using hlast
  have hqd := @query_api_attempts_ok _ _ d (MAX_TRIES - 1) _ (hq d (by omega))
  have hpd := hp d (by omega)
  have hadv := process_stream_loop_advance st api (generate_report_definition stream)
    pages rows nxt (fun i => i) d 0 (f2 + 1) []
    (fun i h1 h2 => query_api_attempts_ok (hq i (by omega)))
    (fun i h1 h2 => hp i (by omega))
    (fun i h1 h2 => hmid i (by omega))
  rw [show tokenChain nxt 0 = none from rfl] at hadv
  simp only [Nat.zero_add, List.nil_append] at hadv
  unfold process_stream
  simp only [hadv]
  simp [process_stream_loop, hqd, hpd, hlast2, prependTokens, List.range_succ]

/-- C5 witness: two pages (the first carrying token `T2`, the second
none) yield exactly 2 calls — with tokens `none` then `T2` — and the
concatenated records. -/
theorem C5_pagination_terminates_witness :
    process_stream ⟨[], [], "v", "2019-05-01", "2019-05-28"⟩ ⟨[], []⟩
        (fun n _ => if n = 0
          then .ok ⟨[{ columnHeader := ⟨[], []⟩, data := ⟨[]⟩, nextPageToken := some "T2" }]⟩
          else .ok ⟨[{ columnHeader := ⟨[], []⟩, data := ⟨[]⟩, nextPageToken := none }]⟩) 2 =
      ⟨2, [none, some "T2"], .ok []⟩ := by
  have h := C5_pagination_terminates ⟨[], [], "v", "2019-05-01", "2019-05-28"⟩ ⟨[], []⟩
    (fun n _ => if n = 0
      then .ok ⟨[{ columnHeader := ⟨[], []⟩, data := ⟨[]⟩, nextPageToken := some "T2" }]⟩
      else .ok ⟨[{ columnHeader := ⟨[], []⟩, data := ⟨[]⟩, nextPageToken := none }]⟩)
    (fun n => if n = 0
      then ⟨[{ columnHeader := ⟨[], []⟩, data := ⟨[]⟩, nextPageToken := some "T2" }]⟩
      else ⟨[{ columnHeader := ⟨[], []⟩, data := ⟨[]⟩, nextPageToken := none }]⟩)
    (fun _ => []) (fun n => if n = 0 then some "T2" else none) 2 2
    (by omega) (le_refl 2)
    (fun i hi => by interval_cases i <;> rfl)
    (fun i hi => by interval_cases i <;> rfl)
    (fun i hi => by
      have h0 : i = 0 := Nat.lt_one_iff.mp (by omega)
      subst h0
      simp)
    rfl
  rw [h]
  rfl

/-- C10: when the remote call for some page ultimately fails (here:
after `k` successfully fetched and processed pages, the retry wrapper
for call `k` returns an error — fatal or retries exhausted), the fetch
raises the classified error and delivers zero records: the outcome is
the error alone, and the records accumulated from the `k` earlier pages
are discarded. -/
theorem C10_failure_yields_no_records (st : GAState) (stream : StreamSpec)
    (api : Nat → WireRequest → Except HttpErrorData Response)
    (pages : Nat → Response) (rows : Nat → List Record) (nxt : Nat → Option String)
    (att : Nat → Nat) (k a2 : Nat) (e : HttpErrorData) (fuel : Nat)
    (hatt0 : att 0 = 0)
    (hfuel : k < fuel)
    (hq : ∀ i, i < k →
      query_api_attempts api
        (query_api_body st (generate_report_definition stream) (tokenChain nxt i))
        (att i) (MAX_TRIES - 1) = (att (i + 1), .ok (pages i)))
    (hp : ∀ i, i < k → process_response st (pages i) = .ok (nxt i, rows i))
    (ht : ∀ i, i < k → nxt i ≠ none)
    (hfail : query_api_attempts api
        (query_api_body st (generate_report_definition stream) (tokenChain nxt k))
        (att k) (MAX_TRIES - 1) = (a2, .error e)) :
    process_stream st stream api fuel =
      ⟨a2, (List.range (k + 1)).map (tokenChain nxt),
        .err (.tapError (classify_http_error e))⟩ := by
  obtain ⟨f2, rfl⟩ : ∃ f2, fuel = k + (f2 + 1) := ⟨fuel - k - 1, by omega⟩
  have hadv := process_stream_loop_advance st api (generate_report_definition stream)
    pages rows nxt att k 0 (f2 + 1) []
    (fun i h1 h2 => hq i (by omega))
    (fun i h1 h2 => hp i (by omega))
    (fun i h1 h2 => ht i (by omega))
  rw [hatt0] at hadv
  rw [show tokenChain nxt 0 = none from rfl] at hadv
  simp only [Nat.zero_add, List.nil_append] at hadv
  unfold process_stream
  simp only [hadv]
  simp [process_stream_loop, hfail, prependTokens, List.range_succ]

/-- C10 witness: one successful page with one record and a token,
followed by a fatally failing call, yields the classified error and an
outcome carrying no records at all. -/
theorem C10_failure_yields_no_records_witness :
    process_stream ⟨[("ga:date", "STRING")], [], "v", "2019-05-01", "2019-05-28"⟩ ⟨[], []⟩
        (fun n _ => if n = 0
          then .ok ⟨[{ columnHeader := ⟨["ga:date"], []⟩,
                       data := ⟨[⟨["20190501"], []⟩]⟩, nextPageToken := some "T" }]⟩
          else .error ⟨400, "badRequest", "m"⟩) 2 =
      ⟨2, [none, some "T"], .err (.tapError (.invalidArgument "m"))⟩ := by
  have h := C10_failure_yields_no_records
    ⟨[("ga:date", "STRING")], [], "v", "2019-05-01", "2019-05-28"⟩ ⟨[], []⟩
    (fun n _ => if n = 0
      then .ok ⟨[{ columnHeader := ⟨["ga:date"], []⟩,
                   data := ⟨[⟨["20190501"], []⟩]⟩, nextPageToken := some "T" }]⟩
      else .error ⟨400, "badRequest", "m"⟩)
    (fun _ => ⟨[{ columnHeader := ⟨["ga:date"], []⟩,
                  data := ⟨[⟨["20190501"], []⟩]⟩, nextPageToken := some "T" }]⟩)
    (fun _ => [[("ga_date", .str "20190501"),
                ("report_start_date", .str "2019-05-01"),
                ("report_end_date", .str "2019-05-28")]])
    (fun _ => some "T") (fun i => i) 1 2 ⟨400, "badRequest", "m"⟩ 2
    rfl (by omega)
    (fun i hi => by
      have h0 : i = 0 := Nat.lt_one_iff.mp (by omega)
      subst h0
      rfl)
    (fun i hi => by
      have h0 : i = 0 := Nat.lt_one_iff.mp (by omega)
      subst h0
      rfl)
    (fun i hi => by simp)
    rfl
  rw [h]
  rfl

end TapGA
